import Mathlib

/-!
Verification development for the folder-to-tag plugin (src/main.ts).

The source derives classification tags for a note from its vault path,
merges them into the note's frontmatter tag list, and keeps stored
directory-to-tags mappings consistent across renames.

Representation choices of this shallow embedding:

* A normalized vault path (the output of the host's normalizePath: no
  leading or trailing separator, separator-consistent) is represented by
  its list of segments.  Under that representation the source's string
  operations translate as follows:
  - path.split("/").slice(0, -1)  becomes  List.dropLast,
  - dirPath === dir               becomes  list equality,
  - dirPath.startsWith(dir + "/") becomes  a strict list-prefix test
    that additionally requires dir to be nonempty (the string "/" is
    never a prefix of a normalized path),
  - dir.substring(oldDir.length)  becomes  List.drop oldDir.length.
* The frontmatter block passed to processFrontMatter is represented by
  Yaml: either not a structured object (the source's early return) or an
  object whose tags field is absent (none) or a list of tag strings.
  The source additionally accepts a comma-separated string form and trims
  each entry when reading; on the modeled representation (tag lists as
  already-split, already-trimmed strings) that read collapses to
  Option.getD [].
* A write is a mutation of the metadata block: an assignment to or a
  deletion of its tags field inside the processFrontMatter callback.
  Functions that mutate return the new block together with a Bool that
  is true exactly when such a mutation happened.
-/

/-- Directory of a note or of a mapping: segment list of a normalized
directory path (empty for the vault root). -/
abbrev DirPath := List String

/-- Normalized path of a note: directory segments followed by the leaf
file name. -/
abbrev NotePath := List String

/-- A user-defined directory-to-tags mapping (interface
DirectoryTagMapping of src/main.ts). -/
structure DirectoryTagMapping where
  directory : DirPath
  tags : List String
deriving DecidableEq, Repr

/-- The folderDepth setting (the five folder-depth policies "1",
"2split", "2single", "full", "allsplit" of src/main.ts). -/
inductive FolderDepth where
  | depth1
  | depth2split
  | depth2single
  | full
  | allsplit
deriving DecidableEq, Repr

/-- The plugin settings object (interface FolderTagPluginSettings of
src/main.ts). -/
structure FolderTagPluginSettings where
  folderDepth : FolderDepth
  tagPrefix : String
  tagSuffix : String
  directoryTagMappings : List DirectoryTagMapping
deriving DecidableEq, Repr

/-- Models dirPath.startsWith(mappedDir + "/") for normalized segment
paths: mappedDir must be nonempty (a normalized path never starts with
the separator) and a strict prefix of dirPath. -/
def startsWithDirSlash (dirPath mappedDir : DirPath) : Bool :=
  !mappedDir.isEmpty && decide (mappedDir.length < dirPath.length)
    && mappedDir.isPrefixOf dirPath

/-- The in-scope test used throughout src/main.ts:
dirPath === normalizedDir || dirPath.startsWith(normalizedDir + "/"). -/
def isUnderDir (dirPath mappedDir : DirPath) : Bool :=
  dirPath == mappedDir || startsWithDirSlash dirPath mappedDir

/-- getFolderTagsFromPath of src/main.ts: the ordered folder-derived
tags of a normalized path under the folderDepth policy and the
configured tag decorations. -/
def getFolderTagsFromPath (s : FolderTagPluginSettings) (path : NotePath) :
    List String :=
  let parts := path.dropLast
  if parts.isEmpty then []
  else
    match s with
    | ⟨depth, pre, suf, _⟩ =>
      match depth with
      | .depth1 => [pre ++ parts.getLastD "" ++ suf]
      | .depth2split =>
        if parts.length ≥ 2 then
          [pre ++ parts.getLastD "" ++ suf,
           pre ++ parts.dropLast.getLastD "" ++ suf]
        else [pre ++ parts.getLastD "" ++ suf]
      | .depth2single =>
        if parts.length ≥ 2 then
          [pre ++ parts.dropLast.getLastD "" ++ "/" ++ parts.getLastD "" ++ suf]
        else [pre ++ parts.getLastD "" ++ suf]
      | .full => [pre ++ String.intercalate "/" parts ++ suf]
      | .allsplit => parts.map (fun part => pre ++ part ++ suf)

/-- getCustomDirectoryTags of src/main.ts: the concatenated tags of
every mapping whose directory is the note's directory or an ancestor of
it, in store order; mappings with an empty directory are skipped. -/
def getCustomDirectoryTags (s : FolderTagPluginSettings) (path : NotePath) :
    List String :=
  let dirPath := path.dropLast
  ((s.directoryTagMappings.filter
      (fun m => !m.directory.isEmpty && isUnderDir dirPath m.directory)).map
    (fun m => m.tags)).flatten

/-- One step of the push-if-absent idiom
(if (!existingTags.includes(t)) existingTags.push(t)), also the
first-occurrence deduplication performed by the spread of a Set. -/
def insertUnique (acc : List String) (t : String) : List String :=
  if acc.contains t then acc else acc ++ [t]

/-- getAllTags of src/main.ts: folder-derived tags followed by custom
directory tags, deduplicated keeping first occurrences. -/
def getAllTags (s : FolderTagPluginSettings) (path : NotePath) : List String :=
  ((getFolderTagsFromPath s path ++ getCustomDirectoryTags s path).foldl
    insertUnique [])

/-- The reconciliation core of applyFolderTag (src/main.ts lines
869-890): drop every current tag that occurs in the removal list, then
append every tag of the addition list that is not already present, in
order.  The create action of the source performs no removal, which is
the remove = [] instance. -/
def reconcile (tags remove add : List String) : List String :=
  (add.foldl insertUnique (tags.filter (fun t => !remove.contains t)))

/-- The frontmatter tags field as seen by the processFrontMatter
callbacks of src/main.ts: either not a structured object (the
callbacks return without touching it) or an object whose tags field is
absent or a tag list. -/
inductive Yaml where
  | invalid
  | obj (tags : Option (List String))
deriving DecidableEq, Repr

/-- Extraction of existingTags from the tags field; on the modeled
representation the source's array/string and trim handling collapses
to Option.getD []. -/
def readTags (tagsField : Option (List String)) : List String :=
  tagsField.getD []

/-- The three reconciliation actions of applyFolderTag. -/
inductive TagAction where
  | create
  | move
  | rerun
deriving DecidableEq, Repr

/-- applyFolderTag of src/main.ts: resolve the tag set of the note's
current path; if it is empty do nothing at all; otherwise reconcile the
stored tag list against it, removing (for a move) the resolution of the
old path or (for a rerun) the resolution of the current path.  The
returned Bool reports whether the metadata block was written
(yaml.tags is assigned unconditionally once the callback runs on a
structured object). -/
def applyFolderTag (s : FolderTagPluginSettings) (path : NotePath)
    (action : TagAction) (oldPath : Option NotePath) (y : Yaml) :
    Yaml × Bool :=
  let folderTags := getAllTags s path
  if folderTags.isEmpty then (y, false)
  else
    match y with
    | .invalid => (.invalid, false)
    | .obj tagsField =>
      let existingTags := readTags tagsField
      let removeList : List String :=
        match action, oldPath with
        | .move, some op => getAllTags s op
        | .rerun, _ => getAllTags s path
        | _, _ => []
      (.obj (some (reconcile existingTags removeList folderTags)), true)

/-- removeFolderTags of src/main.ts: filter the resolved tag set of the
note's path out of the stored tag list, deleting the tags field when
the result is empty. -/
def removeFolderTags (s : FolderTagPluginSettings) (path : NotePath)
    (y : Yaml) : Yaml × Bool :=
  let folderTags := getAllTags s path
  if folderTags.isEmpty then (y, false)
  else
    match y with
    | .invalid => (.invalid, false)
    | .obj tagsField =>
      let existingTags := readTags tagsField
      let remaining := existingTags.filter (fun t => !folderTags.contains t)
      (.obj (if remaining.isEmpty then none else some remaining), true)

/-- The per-mapping rewrite step of handleDirectoryRename (src/main.ts
lines 807-817): a mapping whose directory is the renamed directory or a
descendant of it has the oldDir segment prefix replaced by newDir
(mapping.directory = newDir + normalizedMapping.substring(oldDir.length)). -/
def renameMappingDir (oldDir newDir : DirPath) (m : DirectoryTagMapping) :
    DirectoryTagMapping :=
  if m.directory == oldDir || startsWithDirSlash m.directory oldDir then
    { m with directory := newDir ++ m.directory.drop oldDir.length }
  else m

/-- handleDirectoryRename of src/main.ts (lines 796-824), the spec's
renamePropagate, on the two directories it derives from the old and new
note paths: nothing happens when the directory did not change, otherwise
every stored mapping goes through the rewrite step. -/
def handleDirectoryRename (oldDir newDir : DirPath)
    (maps : List DirectoryTagMapping) : List DirectoryTagMapping :=
  if oldDir == newDir then maps
  else maps.map (renameMappingDir oldDir newDir)

/-- hasDirectoryMapping of src/main.ts: whether some stored mapping has
exactly this directory. -/
def hasDirectoryMapping (maps : List DirectoryTagMapping)
    (dirPath : DirPath) : Bool :=
  maps.any (fun m => m.directory == dirPath)

/-- findParentDirectoryMapping of src/main.ts: the first stored mapping
(in store order) whose directory is nonempty, different from dirPath,
and a strict ancestor of dirPath.  Its tags are not inspected here. -/
def findParentDirectoryMapping (maps : List DirectoryTagMapping)
    (dirPath : DirPath) : Option DirectoryTagMapping :=
  maps.find? (fun m =>
    !m.directory.isEmpty && !(m.directory == dirPath)
      && startsWithDirSlash dirPath m.directory)

/-- handleNewSubdirectory of src/main.ts, the spec's
inheritForNewDirectory, restricted to its effect on the mapping store:
when the newly observed directory has no exact mapping and
findParentDirectoryMapping returns a mapping with at least one tag, a
new mapping inheriting that mapping's tags is appended.  (The source
additionally applies the new mapping's tags to the directory's existing
notes; that part is applyTagsForMapping below.) -/
def handleNewSubdirectory (maps : List DirectoryTagMapping)
    (dirPath : DirPath) : List DirectoryTagMapping :=
  if hasDirectoryMapping maps dirPath then maps
  else
    match findParentDirectoryMapping maps dirPath with
    | some parentMapping =>
      if decide (0 < parentMapping.tags.length) then
        maps ++ [⟨dirPath, parentMapping.tags⟩]
      else maps
    | none => maps

/-- A document of the host store: its normalized path, its frontmatter
block, and whether the host's processFrontMatter transaction for it
fails (the per-document I/O or parse failure of the spec's error
taxonomy; the host guarantees a failed transaction mutates nothing). -/
structure Doc where
  path : NotePath
  yaml : Yaml
  txFails : Bool
deriving DecidableEq, Repr

/-- One processFrontMatter transaction: fails without mutating when the
host fails for this document, otherwise runs the callback on the block
and reports the callback's counting flag. -/
def processFM (d : Doc) (f : Yaml → Yaml × Bool) : Except Unit (Doc × Bool) :=
  if d.txFails then .error ()
  else
    let (y, counted) := f d.yaml
    .ok ({ d with yaml := y }, counted)

/-- applyFolderTag lifted to a document of the host store: the source
only opens a transaction when the resolved tag set is nonempty. -/
def applyFolderTagDoc (s : FolderTagPluginSettings) (action : TagAction)
    (oldPath : Option NotePath) (d : Doc) : Except Unit (Doc × Bool) :=
  if (getAllTags s d.path).isEmpty then .ok (d, false)
  else processFM d (fun y => applyFolderTag s d.path action oldPath y)

/-- The processFrontMatter callback of removeTagsForMapping
(src/main.ts lines 958-978): filter this mapping's tags out of the
stored list, count the document when the list shrank, delete the tags
field when nothing remains. -/
def removeDocTags (mapping : DirectoryTagMapping) (y : Yaml) : Yaml × Bool :=
  match y with
  | .invalid => (.invalid, false)
  | .obj tagsField =>
    let existingTags := readTags tagsField
    let remaining := existingTags.filter (fun t => !mapping.tags.contains t)
    (.obj (if remaining.isEmpty then none else some remaining),
     decide (remaining.length < existingTags.length))

/-- removeTagsForMapping of src/main.ts (lines 947-983): iterate over
all documents, processing those inside the mapping's directory.  There
is no try/catch in this loop: a failing transaction propagates. -/
def removeTagsForMapping (mapping : DirectoryTagMapping) :
    List Doc → Except Unit (List Doc × Nat)
  | [] => .ok ([], 0)
  | d :: ds =>
    if isUnderDir d.path.dropLast mapping.directory then
      match processFM d (removeDocTags mapping) with
      | .error e => .error e
      | .ok (d', counted) =>
        match removeTagsForMapping mapping ds with
        | .error e => .error e
        | .ok (ds', c) => .ok (d' :: ds', (if counted then 1 else 0) + c)
    else
      match removeTagsForMapping mapping ds with
      | .error e => .error e
      | .ok (ds', c) => .ok (d :: ds', c)

/-- The processFrontMatter callback of applyTagsForMapping (src/main.ts
lines 1003-1026): append the mapping's missing tags, count the document
when the list grew; the tags field is always assigned. -/
def applyDocTags (mapping : DirectoryTagMapping) (y : Yaml) : Yaml × Bool :=
  match y with
  | .invalid => (.invalid, false)
  | .obj tagsField =>
    let existingTags := readTags tagsField
    let final := mapping.tags.foldl insertUnique existingTags
    (.obj (some final), decide (existingTags.length < final.length))

/-- The document loop of applyTagsForMapping (no try/catch). -/
def applyTagsForMappingGo (mapping : DirectoryTagMapping) :
    List Doc → Except Unit (List Doc × Nat)
  | [] => .ok ([], 0)
  | d :: ds =>
    if isUnderDir d.path.dropLast mapping.directory then
      match processFM d (applyDocTags mapping) with
      | .error e => .error e
      | .ok (d', counted) =>
        match applyTagsForMappingGo mapping ds with
        | .error e => .error e
        | .ok (ds', c) => .ok (d' :: ds', (if counted then 1 else 0) + c)
    else
      match applyTagsForMappingGo mapping ds with
      | .error e => .error e
      | .ok (ds', c) => .ok (d :: ds', c)

/-- applyTagsForMapping of src/main.ts (lines 988-1031): returns 0
without touching any document when the mapping has an empty directory
or no tags. -/
def applyTagsForMapping (mapping : DirectoryTagMapping) (docs : List Doc) :
    Except Unit (List Doc × Nat) :=
  if mapping.directory.isEmpty || mapping.tags.isEmpty then .ok (docs, 0)
  else applyTagsForMappingGo mapping docs

/-- One step of the push-and-flag idiom of updateTagsForMapping: push a
missing tag and record that a modification happened. -/
def pushAbsent (st : List String × Bool) (t : String) : List String × Bool :=
  if st.1.contains t then st else (st.1 ++ [t], true)

/-- The processFrontMatter callback of updateTagsForMapping
(src/main.ts lines 1051-1084): remove the mapping's previous tags, add
its current ones, count the document when either step did something;
delete the tags field when nothing remains. -/
def updateDocTags (mapping : DirectoryTagMapping) (oldTags : List String)
    (y : Yaml) : Yaml × Bool :=
  match y with
  | .invalid => (.invalid, false)
  | .obj tagsField =>
    let existingTags := readTags tagsField
    let afterRemove := existingTags.filter (fun t => !oldTags.contains t)
    let removedAny := decide (afterRemove.length < existingTags.length)
    let st := mapping.tags.foldl pushAbsent (afterRemove, removedAny)
    (.obj (if st.1.isEmpty then none else some st.1), st.2)

/-- The document loop of updateTagsForMapping (no try/catch). -/
def updateTagsForMappingGo (mapping : DirectoryTagMapping)
    (oldTags : List String) : List Doc → Except Unit (List Doc × Nat)
  | [] => .ok ([], 0)
  | d :: ds =>
    if isUnderDir d.path.dropLast mapping.directory then
      match processFM d (updateDocTags mapping oldTags) with
      | .error e => .error e
      | .ok (d', counted) =>
        match updateTagsForMappingGo mapping oldTags ds with
        | .error e => .error e
        | .ok (ds', c) => .ok (d' :: ds', (if counted then 1 else 0) + c)
    else
      match updateTagsForMappingGo mapping oldTags ds with
      | .error e => .error e
      | .ok (ds', c) => .ok (d :: ds', c)

/-- updateTagsForMapping of src/main.ts (lines 1036-1089): returns 0
without touching any document when the mapping directory is empty. -/
def updateTagsForMapping (mapping : DirectoryTagMapping)
    (oldTags : List String) (docs : List Doc) :
    Except Unit (List Doc × Nat) :=
  if mapping.directory.isEmpty then .ok (docs, 0)
  else updateTagsForMappingGo mapping oldTags docs

/-- cleanAndReapplyAllTags of src/main.ts: rerun applyFolderTag on
every document, catching per-document failures; processedCount is
incremented after every non-failing iteration, whether or not the
document changed. -/
def cleanAndReapplyAllTags (s : FolderTagPluginSettings) :
    List Doc → List Doc × Nat
  | [] => ([], 0)
  | d :: ds =>
    let rest := cleanAndReapplyAllTags s ds
    match applyFolderTagDoc s .rerun none d with
    | .ok (d', _) => (d' :: rest.1, rest.2 + 1)
    | .error _ => (d :: rest.1, rest.2)

/-- The processFrontMatter callback of completeReset (src/main.ts):
filter the full resolved tag set out of the stored list, deleting the
tags field when nothing remains. -/
def resetDocYaml (allTags : List String) (y : Yaml) : Yaml :=
  match y with
  | .invalid => .invalid
  | .obj tagsField =>
    let existingTags := readTags tagsField
    let remaining := existingTags.filter (fun t => !allTags.contains t)
    .obj (if remaining.isEmpty then none else some remaining)

/-- One document of completeReset: documents whose resolved tag set is
empty are skipped (continue) and not counted; otherwise the transaction
runs and the document is counted whether or not its tags changed, with
a per-document catch isolating failures. -/
def completeResetDoc (s : FolderTagPluginSettings) (d : Doc) :
    Except Unit (Doc × Bool) :=
  let allTags := getAllTags s d.path
  if allTags.isEmpty then .ok (d, false)
  else if d.txFails then .error ()
  else .ok ({ d with yaml := resetDocYaml allTags d.yaml }, true)

/-- The document loop of completeReset (failures caught per document). -/
def completeResetDocs (s : FolderTagPluginSettings) :
    List Doc → List Doc × Nat
  | [] => ([], 0)
  | d :: ds =>
    let rest := completeResetDocs s ds
    match completeResetDoc s d with
    | .ok (d', counted) => (d' :: rest.1, rest.2 + (if counted then 1 else 0))
    | .error _ => (d :: rest.1, rest.2)

/-- completeReset of src/main.ts (lines 698-734 of the bundled source):
process every document, then clear all custom directory mappings. -/
def completeReset (s : FolderTagPluginSettings) (docs : List Doc) :
    List Doc × Nat × FolderTagPluginSettings :=
  let (docs', c) := completeResetDocs s docs
  (docs', c, { s with directoryTagMappings := [] })

/-! Helper lemmas about the push-if-absent idiom. -/

theorem contains_true_iff (l : List String) (a : String) :
    l.contains a = true ↔ a ∈ l :=
  List.elem_iff

theorem not_contains_true_iff (l : List String) (a : String) :
    (!l.contains a) = true ↔ a ∉ l := by
  rw [Bool.not_eq_true', ← Bool.not_eq_true, contains_true_iff]

theorem insertUnique_of_mem {acc : List String} {t : String} (h : t ∈ acc) :
    insertUnique acc t = acc := by
  unfold insertUnique
  rw [if_pos ((contains_true_iff acc t).mpr h)]

theorem insertUnique_of_not_mem {acc : List String} {t : String}
    (h : t ∉ acc) : insertUnique acc t = acc ++ [t] := by
  unfold insertUnique
  rw [if_neg (fun hc => h ((contains_true_iff acc t).mp hc))]

theorem mem_insertUnique (acc : List String) (t a : String) :
    a ∈ insertUnique acc t ↔ a ∈ acc ∨ a = t := by
  by_cases h : t ∈ acc
  · rw [insertUnique_of_mem h]
    constructor
    · exact Or.inl
    · rintro (ha | rfl) <;> [exact ha; exact h]
  · rw [insertUnique_of_not_mem h]
    simp

theorem mem_foldl_insertUnique (l acc : List String) (a : String) :
    a ∈ l.foldl insertUnique acc ↔ a ∈ acc ∨ a ∈ l := by
  induction l generalizing acc with
  | nil => simp
  | cons t ts ih =>
    simp only [List.foldl_cons, ih, mem_insertUnique, List.mem_cons]
    tauto

theorem foldl_insertUnique_eq_self {l acc : List String}
    (h : ∀ a ∈ l, a ∈ acc) : l.foldl insertUnique acc = acc := by
  induction l with
  | nil => rfl
  | cons t ts ih =>
    rw [List.foldl_cons, insertUnique_of_mem (h t (List.mem_cons_self t ts))]
    exact ih fun a ha => h a (List.mem_cons_of_mem t ha)

theorem foldl_insertUnique_append (l acc : List String) :
    ∃ extra, l.foldl insertUnique acc = acc ++ extra
      ∧ ∀ a ∈ extra, a ∈ l ∧ a ∉ acc := by
  induction l generalizing acc with
  | nil => exact ⟨[], by simp, by simp⟩
  | cons t ts ih =>
    by_cases h : t ∈ acc
    · obtain ⟨E, hE, hmem⟩ := ih acc
      refine ⟨E, ?_, fun a ha => ⟨List.mem_cons_of_mem t (hmem a ha).1,
        (hmem a ha).2⟩⟩
      rw [List.foldl_cons, insertUnique_of_mem h, hE]
    · obtain ⟨E, hE, hmem⟩ := ih (acc ++ [t])
      refine ⟨t :: E, ?_, ?_⟩
      · rw [List.foldl_cons, insertUnique_of_not_mem h, hE, List.append_assoc]
        rfl
      · intro a hmemE
        rcases List.mem_cons.mp hmemE with rfl | ha
        · exact ⟨List.mem_cons_self a ts, h⟩
        · refine ⟨List.mem_cons_of_mem t (hmem a ha).1, fun hacc => ?_⟩
          exact (hmem a ha).2 (List.mem_append_left [t] hacc)

theorem length_lt_foldl_insertUnique_iff (l acc : List String) :
    acc.length < (l.foldl insertUnique acc).length ↔ ∃ a ∈ l, a ∉ acc := by
  obtain ⟨E, hE, hmem⟩ := foldl_insertUnique_append l acc
  rw [hE, List.length_append]
  constructor
  · intro h
    have hne : E ≠ [] := by
      intro h0
      rw [h0] at h
      simp at h
    obtain ⟨a, ha⟩ := List.exists_mem_of_ne_nil E hne
    exact ⟨a, (hmem a ha).1, (hmem a ha).2⟩
  · rintro ⟨a, hal, hacc⟩
    have hmem2 : a ∈ acc ++ E := by
      rw [← hE]
      exact (mem_foldl_insertUnique l acc a).mpr (Or.inr hal)
    have haE : a ∈ E := by
      rcases List.mem_append.mp hmem2 with h | h
      · exact absurd h hacc
      · exact h
    have : 0 < E.length := List.length_pos.mpr (List.ne_nil_of_mem haE)
    omega

theorem foldl_pushAbsent_fst (l acc : List String) (b : Bool) :
    (l.foldl pushAbsent (acc, b)).1 = l.foldl insertUnique acc := by
  induction l generalizing acc b with
  | nil => rfl
  | cons t ts ih =>
    rw [List.foldl_cons, List.foldl_cons]
    by_cases h : t ∈ acc
    · rw [insertUnique_of_mem h,
        show pushAbsent (acc, b) t = (acc, b) from by
          unfold pushAbsent
          rw [if_pos ((contains_true_iff acc t).mpr h)]]
      exact ih acc b
    · rw [insertUnique_of_not_mem h,
        show pushAbsent (acc, b) t = (acc ++ [t], true) from by
          unfold pushAbsent
          rw [if_neg (fun hc => h ((contains_true_iff acc t).mp hc))]]
      exact ih (acc ++ [t]) true

theorem foldl_pushAbsent_snd (l acc : List String) (b : Bool) :
    (l.foldl pushAbsent (acc, b)).2 = true
      ↔ b = true ∨ ∃ a ∈ l, a ∉ acc := by
  induction l generalizing acc b with
  | nil => simp
  | cons t ts ih =>
    rw [List.foldl_cons]
    by_cases h : t ∈ acc
    · rw [show pushAbsent (acc, b) t = (acc, b) from by
        unfold pushAbsent
        rw [if_pos ((contains_true_iff acc t).mpr h)], ih]
      constructor
      · rintro (hb | ⟨a, ha, hna⟩)
        · exact Or.inl hb
        · exact Or.inr ⟨a, List.mem_cons_of_mem t ha, hna⟩
      · rintro (hb | ⟨a, ha, hna⟩)
        · exact Or.inl hb
        · rcases List.mem_cons.mp ha with rfl | ha2
          · exact absurd h hna
          · exact Or.inr ⟨a, ha2, hna⟩
    · rw [show pushAbsent (acc, b) t = (acc ++ [t], true) from by
        unfold pushAbsent
        rw [if_neg (fun hc => h ((contains_true_iff acc t).mp hc))], ih]
      constructor
      · intro _
        exact Or.inr ⟨t, List.mem_cons_self t ts, h⟩
      · intro _
        exact Or.inl rfl

/-! Claim theorems. -/

/-- C4: for every normalized path with zero directory segments (a
document stored at the vault root), the path-tag derivation returns the
empty list under every one of the five folder-depth policies and every
tag-decoration setting. -/
theorem claim_C4 (depth : FolderDepth) (pre suf : String)
    (maps : List DirectoryTagMapping) (path : NotePath)
    (h : path.dropLast = []) :
    getFolderTagsFromPath ⟨depth, pre, suf, maps⟩ path = [] := by
  unfold getFolderTagsFromPath
  simp [h]

theorem claim_C4_witness :
    (["note.md"] : NotePath).dropLast = []
      ∧ getFolderTagsFromPath ⟨.allsplit, "p-", "-s", [⟨["a"], ["t"]⟩]⟩
          ["note.md"] = [] :=
  ⟨by decide, claim_C4 .allsplit "p-" "-s" [⟨["a"], ["t"]⟩] ["note.md"] (by decide)⟩

/-- C10: whenever the resolved tag set of the document's current path
is empty, the create/move/rerun reconciliation performs no modification
to the document at all (no write, block returned unchanged); in
particular a move whose new path resolves to no tags leaves the tags of
the old path in place. -/
theorem claim_C10 (s : FolderTagPluginSettings) (path : NotePath)
    (action : TagAction) (oldPath : Option NotePath) (y : Yaml)
    (h : getAllTags s path = []) :
    applyFolderTag s path action oldPath y = (y, false) := by
  unfold applyFolderTag
  simp [h]

theorem claim_C10_witness :
    getAllTags ⟨.depth1, "", "", []⟩ ["note.md"] = []
    ∧ applyFolderTag ⟨.depth1, "", "", []⟩ ["note.md"] .move
        (some ["a", "note.md"]) (.obj (some ["a", "x"]))
        = (.obj (some ["a", "x"]), false) :=
  ⟨by decide, claim_C10 ⟨.depth1, "", "", []⟩ ["note.md"] .move
    (some ["a", "note.md"]) (.obj (some ["a", "x"])) (by decide)⟩

/-- C1 counterexample: the claimed move of a/b/note.md to a/c/note.md
under depth-1 with no mappings and empty decorations does NOT yield the
tag list ["c", "x"]: the source appends the added tag at the end, so
the result is ["x", "c"]. -/
theorem claim_C1_counterexample :
    (applyFolderTag ⟨.depth1, "", "", []⟩ ["a", "c", "note.md"] .move
      (some ["a", "b", "note.md"]) (.obj (some ["b", "x"]))).1
    ≠ Yaml.obj (some ["c", "x"]) := by decide

/-- C1 (amended): the move of a/b/note.md to a/c/note.md under depth-1
with no custom mappings and empty decorations turns the tag list
["b", "x"] into ["x", "c"] (x preserved in place, b removed, c appended
at the end); in general every move with a nonempty new-path resolution
reconciles the stored list with removals resolved from the old path and
additions resolved from the new path. -/
theorem claim_C1 :
    applyFolderTag ⟨.depth1, "", "", []⟩ ["a", "c", "note.md"] .move
      (some ["a", "b", "note.md"]) (.obj (some ["b", "x"]))
      = (.obj (some ["x", "c"]), true)
    ∧ ∀ (s : FolderTagPluginSettings) (p op : NotePath)
        (tagsField : Option (List String)),
        getAllTags s p ≠ [] →
        applyFolderTag s p .move (some op) (.obj tagsField)
          = (.obj (some (reconcile (readTags tagsField) (getAllTags s op)
              (getAllTags s p))), true) := by
  constructor
  · decide
  · intro s p op tagsField h
    unfold applyFolderTag
    simp [h]

theorem claim_C1_witness :
    getAllTags ⟨.depth1, "", "", []⟩ ["a", "c", "note.md"] ≠ []
    ∧ applyFolderTag ⟨.depth1, "", "", []⟩ ["a", "c", "note.md"] .move
        (some ["a", "b", "note.md"]) (.obj (some ["b", "x"]))
        = (.obj (some (reconcile (readTags (some ["b", "x"]))
            (getAllTags ⟨.depth1, "", "", []⟩ ["a", "b", "note.md"])
            (getAllTags ⟨.depth1, "", "", []⟩ ["a", "c", "note.md"]))), true) :=
  ⟨by decide, claim_C1.2 ⟨.depth1, "", "", []⟩ ["a", "c", "note.md"]
    ["a", "b", "note.md"] (some ["b", "x"]) (by decide)⟩

/-- C2 counterexample: reconcile applied twice with the same removal
and addition lists is NOT idempotent when they share an element: with
tags = [], remove = ["a"], add = ["a", "b"] the first application gives
["a", "b"] and the second gives ["b", "a"]. -/
theorem claim_C2_counterexample :
    reconcile (reconcile [] ["a"] ["a", "b"]) ["a"] ["a", "b"]
      ≠ reconcile [] ["a"] ["a", "b"] := by decide

/-- C2 (amended): reconcile applied twice with the same removal and
addition lists is idempotent provided no added tag also occurs in the
removal list (when they share an element, the second application can
move that element to the end of the list). -/
theorem claim_C2 (tags remove add : List String)
    (h : ∀ t ∈ add, t ∉ remove) :
    reconcile (reconcile tags remove add) remove add
      = reconcile tags remove add := by
  unfold reconcile
  have hfil : (add.foldl insertUnique
      (tags.filter (fun t => !remove.contains t))).filter
        (fun t => !remove.contains t)
      = add.foldl insertUnique (tags.filter (fun t => !remove.contains t)) := by
    rw [List.filter_eq_self]
    intro a ha
    rcases (mem_foldl_insertUnique add _ a).mp ha with hk | hadd
    · exact (List.mem_filter.mp hk).2
    · exact (not_contains_true_iff remove a).mpr (h a hadd)
  rw [hfil]
  apply foldl_insertUnique_eq_self
  intro a ha
  exact (mem_foldl_insertUnique add _ a).mpr (Or.inr ha)

theorem claim_C2_witness :
    (∀ t ∈ (["a"] : List String), t ∉ (["r"] : List String))
    ∧ reconcile (reconcile ["x"] ["r"] ["a"]) ["r"] ["a"]
        = reconcile ["x"] ["r"] ["a"] :=
  ⟨by decide, claim_C2 ["x"] ["r"] ["a"] (by decide)⟩

/-- C5: round-trip: adding a tag set disjoint from the stored list and
then removing it returns exactly the original list. -/
theorem claim_C5 (T A : List String) (h : ∀ a ∈ A, a ∉ T) :
    reconcile (reconcile T [] A) A [] = T := by
  unfold reconcile
  rw [List.foldl_nil]
  have hT : T.filter (fun t => !([] : List String).contains t) = T := by
    rw [List.filter_eq_self]
    intro a _
    rfl
  rw [hT]
  obtain ⟨E, hE, hmem⟩ := foldl_insertUnique_append A T
  rw [hE, List.filter_append]
  have h1 : T.filter (fun t => !A.contains t) = T := by
    rw [List.filter_eq_self]
    intro a ha
    exact (not_contains_true_iff A a).mpr (fun hA => h a hA ha)
  have h2 : E.filter (fun t => !A.contains t) = [] := by
    rw [List.filter_eq_nil_iff]
    intro a ha
    rw [not_contains_true_iff A a]
    intro hno
    exact hno (hmem a ha).1
  rw [h1, h2, List.append_nil]

theorem claim_C5_witness :
    (∀ a ∈ (["a"] : List String), a ∉ (["x"] : List String))
    ∧ reconcile (reconcile ["x"] [] ["a"]) ["a"] [] = ["x"] :=
  ⟨by decide, claim_C5 ["x"] ["a"] (by decide)⟩

/-- C3: rename propagation rewrites exactly the mappings whose
directory equals the renamed directory or descends from it, by
substituting the oldDir prefix with newDir and preserving the
remainder; it leaves every other mapping alone, is a no-op when the
directory did not change, and realizes the two concrete examples of the
specification. -/
theorem claim_C3 :
    (∀ (maps : List DirectoryTagMapping) (d : DirPath),
        handleDirectoryRename d d maps = maps)
    ∧ (∀ (oldDir newDir : DirPath) (maps : List DirectoryTagMapping),
        oldDir ≠ newDir →
        handleDirectoryRename oldDir newDir maps
          = maps.map (renameMappingDir oldDir newDir))
    ∧ (∀ (oldDir newDir : DirPath) (ts : List String),
        renameMappingDir oldDir newDir ⟨oldDir, ts⟩ = ⟨newDir, ts⟩)
    ∧ (∀ (oldDir newDir rest : DirPath) (ts : List String),
        oldDir ≠ [] → rest ≠ [] →
        renameMappingDir oldDir newDir ⟨oldDir ++ rest, ts⟩
          = ⟨newDir ++ rest, ts⟩)
    ∧ (∀ (oldDir newDir : DirPath) (m : DirectoryTagMapping),
        m.directory ≠ oldDir →
        startsWithDirSlash m.directory oldDir = false →
        renameMappingDir oldDir newDir m = m)
    ∧ handleDirectoryRename ["a", "old"] ["a", "new"]
        [⟨["a", "old"], ["t"]⟩, ⟨["a", "old", "child"], ["t"]⟩]
      = [⟨["a", "new"], ["t"]⟩, ⟨["a", "new", "child"], ["t"]⟩] := by
  refine ⟨?_, ?_, ?_, ?_, ?_, by decide⟩
  · intro maps d
    simp [handleDirectoryRename]
  · intro oldDir newDir maps h
    simp [handleDirectoryRename, h]
  · intro oldDir newDir ts
    simp [renameMappingDir, List.drop_length]
  · intro oldDir newDir rest ts hold hrest
    have hpre : oldDir.isPrefixOf (oldDir ++ rest) = true :=
      Iff.mpr List.isPrefixOf_iff_prefix (List.prefix_append oldDir rest)
    have hlen : oldDir.length < (oldDir ++ rest).length := by
      rw [List.length_append]
      have := List.length_pos.mpr hrest
      omega
    have hnotempty : oldDir.isEmpty = false := by
      cases oldDir with
      | nil => exact absurd rfl hold
      | cons a l => rfl
    unfold renameMappingDir
    rw [if_pos (by
      rw [Bool.or_eq_true]
      right
      unfold startsWithDirSlash
      rw [Bool.and_eq_true, Bool.and_eq_true]
      exact ⟨⟨by rw [hnotempty]; rfl, decide_eq_true hlen⟩, hpre⟩)]
    simp [List.drop_left]
  · intro oldDir newDir m h1 h2
    unfold renameMappingDir
    rw [if_neg (by
      rw [Bool.or_eq_true]
      rintro (hc | hc)
      · exact h1 (by simpa using hc)
      · rw [h2] at hc
        exact Bool.false_ne_true hc)]

theorem claim_C3_witness :
    (["a"] : DirPath) ≠ [] ∧ (["old"] : DirPath) ≠ []
    ∧ renameMappingDir ["a"] ["b"] ⟨["a"] ++ ["old"], ["t"]⟩
        = ⟨["b"] ++ ["old"], ["t"]⟩ :=
  ⟨by decide, by decide,
    claim_C3.2.2.2.1 ["a"] ["b"] ["old"] ["t"] (by decide) (by decide)⟩

/-- C6 counterexample: a create reconciliation whose resulting tag list
equals the stored one (path a/note.md under depth-1, stored tags
["a"]) still writes the metadata block: the source assigns yaml.tags
unconditionally inside the callback. -/
theorem claim_C6_counterexample :
    (applyFolderTag ⟨.depth1, "", "", []⟩ ["a", "note.md"] .create none
        (.obj (some ["a"]))).1 = Yaml.obj (some ["a"])
    ∧ (applyFolderTag ⟨.depth1, "", "", []⟩ ["a", "note.md"] .create none
        (.obj (some ["a"]))).2 = true := by decide

/-- C6 (amended): a reconcile call writes the document's metadata block
exactly when the resolved tag set of the current path is nonempty and
the block is a structured object — even when the resulting tag list
equals the stored one; only calls with an empty resolved set or a
malformed block write nothing. -/
theorem claim_C6 (s : FolderTagPluginSettings) (path : NotePath)
    (action : TagAction) (oldPath : Option NotePath) (y : Yaml) :
    (applyFolderTag s path action oldPath y).2 = true
      ↔ getAllTags s path ≠ [] ∧ y ≠ Yaml.invalid := by
  by_cases h : getAllTags s path = []
  · simp [applyFolderTag, h]
  · cases y with
    | invalid => simp [applyFolderTag, h, List.isEmpty_iff]
    | obj tagsField => simp [applyFolderTag, h, List.isEmpty_iff]

/-! Count characterizations of the bulk operations. -/

theorem cleanAndReapplyAllTags_count (s : FolderTagPluginSettings)
    (docs : List Doc) :
    (cleanAndReapplyAllTags s docs).2
      = (docs.filter
          (fun d => !d.txFails || (getAllTags s d.path).isEmpty)).length := by
  induction docs with
  | nil => rfl
  | cons d ds ih =>
    by_cases hemp : (getAllTags s d.path).isEmpty = true
    · simp [cleanAndReapplyAllTags, applyFolderTagDoc, processFM, hemp,
        List.filter_cons, ih]
    · by_cases hf : d.txFails = true
      · simp [cleanAndReapplyAllTags, applyFolderTagDoc, processFM, hemp, hf,
          List.filter_cons, ih]
      · simp [cleanAndReapplyAllTags, applyFolderTagDoc, processFM, hemp, hf,
          List.filter_cons, ih]

theorem completeResetDocs_count (s : FolderTagPluginSettings)
    (docs : List Doc) :
    (completeResetDocs s docs).2
      = (docs.filter
          (fun d => !(getAllTags s d.path).isEmpty && !d.txFails)).length := by
  induction docs with
  | nil => rfl
  | cons d ds ih =>
    by_cases hemp : (getAllTags s d.path).isEmpty = true
    · simp [completeResetDocs, completeResetDoc, hemp, List.filter_cons, ih]
    · by_cases hf : d.txFails = true
      · simp [completeResetDocs, completeResetDoc, hemp, hf,
          List.filter_cons, ih]
      · simp [completeResetDocs, completeResetDoc, hemp, hf,
          List.filter_cons, ih]

theorem applyDocTags_counted_iff (mapping : DirectoryTagMapping)
    (tagsField : Option (List String)) :
    (applyDocTags mapping (.obj tagsField)).2 = true
      ↔ ∃ t ∈ mapping.tags, t ∉ readTags tagsField := by
  simp only [applyDocTags, decide_eq_true_eq]
  exact length_lt_foldl_insertUnique_iff mapping.tags (readTags tagsField)

theorem removeDocTags_counted_iff (mapping : DirectoryTagMapping)
    (tagsField : Option (List String)) :
    (removeDocTags mapping (.obj tagsField)).2 = true
      ↔ ∃ t ∈ readTags tagsField, t ∈ mapping.tags := by
  simp only [removeDocTags, decide_eq_true_eq]
  rw [List.length_filter_lt_length_iff_exists]
  simp [not_contains_true_iff]

theorem updateDocTags_counted_iff (mapping : DirectoryTagMapping)
    (oldTags : List String) (tagsField : Option (List String)) :
    (updateDocTags mapping oldTags (.obj tagsField)).2 = true
      ↔ (∃ t ∈ readTags tagsField, t ∈ oldTags)
        ∨ ∃ t ∈ mapping.tags,
            t ∉ (readTags tagsField).filter (fun x => !oldTags.contains x) := by
  simp only [updateDocTags]
  rw [foldl_pushAbsent_snd]
  rw [decide_eq_true_eq, List.length_filter_lt_length_iff_exists]
  simp [not_contains_true_iff]

/-- C7 counterexample: clean-and-reapply over a single root document
whose tags cannot change (empty resolved set) returns 1, though zero
documents were modified: its count is documents processed, not
documents modified. -/
theorem claim_C7_counterexample :
    cleanAndReapplyAllTags ⟨.depth1, "", "", []⟩
        [⟨["note.md"], .obj (some ["x"]), false⟩]
      = ([⟨["note.md"], .obj (some ["x"]), false⟩], 1) := by decide

/-- C7 (amended): only the per-mapping operations count edits: their
callbacks flag a document exactly when a tag was removed or appended
(which for the update operation may still net to no change).
Clean-and-reapply counts every document whose iteration did not fail,
and complete reset counts every non-failing document with a nonempty
resolved tag set — in both cases whether or not the document's tag list
changed. -/
theorem claim_C7 :
    (∀ (s : FolderTagPluginSettings) (docs : List Doc),
        (cleanAndReapplyAllTags s docs).2
          = (docs.filter
              (fun d => !d.txFails || (getAllTags s d.path).isEmpty)).length)
    ∧ (∀ (s : FolderTagPluginSettings) (docs : List Doc),
        (completeResetDocs s docs).2
          = (docs.filter
              (fun d => !(getAllTags s d.path).isEmpty && !d.txFails)).length)
    ∧ (∀ (mapping : DirectoryTagMapping) (tagsField : Option (List String)),
        (applyDocTags mapping (.obj tagsField)).2 = true
          ↔ ∃ t ∈ mapping.tags, t ∉ readTags tagsField)
    ∧ (∀ (mapping : DirectoryTagMapping) (tagsField : Option (List String)),
        (removeDocTags mapping (.obj tagsField)).2 = true
          ↔ ∃ t ∈ readTags tagsField, t ∈ mapping.tags)
    ∧ (∀ (mapping : DirectoryTagMapping) (oldTags : List String)
        (tagsField : Option (List String)),
        (updateDocTags mapping oldTags (.obj tagsField)).2 = true
          ↔ (∃ t ∈ readTags tagsField, t ∈ oldTags)
            ∨ ∃ t ∈ mapping.tags,
                t ∉ (readTags tagsField).filter
                  (fun x => !oldTags.contains x)) :=
  ⟨cleanAndReapplyAllTags_count, completeResetDocs_count,
   applyDocTags_counted_iff, removeDocTags_counted_iff,
   updateDocTags_counted_iff⟩

/-- C8 counterexample: a failing transaction on the first in-scope
document makes removeTagsForMapping abort the whole batch and propagate
the error to its caller: the second in-scope document is never
processed. -/
theorem claim_C8_counterexample :
    removeTagsForMapping ⟨["a"], ["t"]⟩
        [⟨["a", "n1.md"], .obj (some ["t"]), true⟩,
         ⟨["a", "n2.md"], .obj (some ["t"]), false⟩]
      = .error () := by rfl

/-- C8 (amended): clean-and-reapply and complete reset isolate
per-document failures — a failing document is skipped unchanged and the
rest of the batch still runs — but the per-mapping remove operation
does not: the first failing in-scope document aborts the batch with the
error propagating to the caller. -/
theorem claim_C8 :
    (∀ (s : FolderTagPluginSettings) (d : Doc) (ds : List Doc),
        d.txFails = true → (getAllTags s d.path).isEmpty = false →
        cleanAndReapplyAllTags s (d :: ds)
          = (d :: (cleanAndReapplyAllTags s ds).1,
             (cleanAndReapplyAllTags s ds).2))
    ∧ (∀ (s : FolderTagPluginSettings) (d : Doc) (ds : List Doc),
        d.txFails = true →
        completeResetDocs s (d :: ds)
          = (d :: (completeResetDocs s ds).1, (completeResetDocs s ds).2))
    ∧ (∀ (mapping : DirectoryTagMapping) (d : Doc) (ds : List Doc),
        isUnderDir d.path.dropLast mapping.directory = true →
        d.txFails = true →
        removeTagsForMapping mapping (d :: ds) = .error ()) := by
  refine ⟨?_, ?_, ?_⟩
  · intro s d ds hf he
    simp [cleanAndReapplyAllTags, applyFolderTagDoc, processFM, hf, he]
  · intro s d ds hf
    by_cases he : (getAllTags s d.path).isEmpty = true
    · simp [completeResetDocs, completeResetDoc, hf, he]
    · simp [completeResetDocs, completeResetDoc, hf, he]
  · intro mapping d ds hs hf
    simp [removeTagsForMapping, processFM, hs, hf]

theorem claim_C8_witness :
    isUnderDir (["a", "n1.md"] : NotePath).dropLast
        (⟨["a"], ["t"]⟩ : DirectoryTagMapping).directory = true
    ∧ (⟨["a", "n1.md"], .obj (some ["t"]), true⟩ : Doc).txFails = true
    ∧ removeTagsForMapping ⟨["a"], ["t"]⟩
        [⟨["a", "n1.md"], .obj (some ["t"]), true⟩,
         ⟨["b", "n3.md"], .obj (some ["t"]), false⟩]
      = .error () :=
  ⟨by decide, by decide,
    claim_C8.2.2 ⟨["a"], ["t"]⟩ ⟨["a", "n1.md"], .obj (some ["t"]), true⟩
      [⟨["b", "n3.md"], .obj (some ["t"]), false⟩] (by decide) (by decide)⟩

/-- C9 counterexample: with stored mappings [a -> [], a/b -> ["t"]] and
newly observed directory a/b/c, no exact mapping exists and the
ancestor a/b has nonempty tags, yet no mapping is created: the source
consults only the first strict ancestor in store order (a), and its tag
list is empty. -/
theorem claim_C9_counterexample :
    handleNewSubdirectory [⟨["a"], []⟩, ⟨["a", "b"], ["t"]⟩] ["a", "b", "c"]
      = [⟨["a"], []⟩, ⟨["a", "b"], ["t"]⟩]
    ∧ hasDirectoryMapping [⟨["a"], []⟩, ⟨["a", "b"], ["t"]⟩] ["a", "b", "c"]
      = false
    ∧ startsWithDirSlash ["a", "b", "c"] ["a", "b"] = true
    ∧ (⟨["a", "b"], ["t"]⟩ : DirectoryTagMapping).tags ≠ [] := by decide

/-- C9 (amended): when a directory is newly observed, a mapping copying
an ancestor's tags is created exactly when no exact mapping exists for
the directory and the FIRST strict-ancestor mapping in store order —
chosen without regard to its tags — has at least one tag; an
empty-tagged ancestor earlier in store order therefore suppresses
inheritance even when a later ancestor has tags. -/
theorem claim_C9 :
    (∀ (maps : List DirectoryTagMapping) (d : DirPath),
        hasDirectoryMapping maps d = true →
        handleNewSubdirectory maps d = maps)
    ∧ (∀ (maps : List DirectoryTagMapping) (d : DirPath)
        (pm : DirectoryTagMapping),
        findParentDirectoryMapping maps d = some pm →
        pm ∈ maps ∧ pm.directory ≠ d ∧ startsWithDirSlash d pm.directory = true)
    ∧ (∀ (maps : List DirectoryTagMapping) (d : DirPath)
        (pm : DirectoryTagMapping),
        hasDirectoryMapping maps d = false →
        findParentDirectoryMapping maps d = some pm →
        pm.tags ≠ [] →
        handleNewSubdirectory maps d = maps ++ [⟨d, pm.tags⟩])
    ∧ (∀ (maps : List DirectoryTagMapping) (d : DirPath)
        (pm : DirectoryTagMapping),
        findParentDirectoryMapping maps d = some pm →
        pm.tags = [] →
        handleNewSubdirectory maps d = maps)
    ∧ (∀ (maps : List DirectoryTagMapping) (d : DirPath),
        findParentDirectoryMapping maps d = none →
        handleNewSubdirectory maps d = maps) := by
  refine ⟨?_, ?_, ?_, ?_, ?_⟩
  · intro maps d h
    simp [handleNewSubdirectory, h]
  · intro maps d pm hfind
    have hp := List.find?_some hfind
    have hmem := List.mem_of_find?_eq_some hfind
    rw [Bool.and_eq_true, Bool.and_eq_true] at hp
    refine ⟨hmem, ?_, hp.2⟩
    intro heq
    have hne := hp.1.2
    rw [heq] at hne
    simp at hne
  · intro maps d pm hno hfind hne
    have hpos : 0 < pm.tags.length := List.length_pos.mpr hne
    simp [handleNewSubdirectory, hno, hfind, hpos]
  · intro maps d pm hfind hemp
    by_cases hh : hasDirectoryMapping maps d = true
    · simp [handleNewSubdirectory, hh]
    · simp [handleNewSubdirectory, hh, hfind, hemp]
  · intro maps d hfind
    by_cases hh : hasDirectoryMapping maps d = true
    · simp [handleNewSubdirectory, hh]
    · simp [handleNewSubdirectory, hh, hfind]

theorem claim_C9_witness :
    hasDirectoryMapping [⟨["a"], ["t"]⟩] ["a", "b"] = false
    ∧ findParentDirectoryMapping [⟨["a"], ["t"]⟩] ["a", "b"]
        = some ⟨["a"], ["t"]⟩
    ∧ (⟨["a"], ["t"]⟩ : DirectoryTagMapping).tags ≠ []
    ∧ handleNewSubdirectory [⟨["a"], ["t"]⟩] ["a", "b"]
        = [⟨["a"], ["t"]⟩] ++ [⟨["a", "b"], ["t"]⟩] :=
  ⟨by decide, by decide, by decide,
    claim_C9.2.2.1 [⟨["a"], ["t"]⟩] ["a", "b"] ⟨["a"], ["t"]⟩
      (by decide) (by decide) (by decide)⟩
